import Mathlib

/-!
Verification of the `spurs` SSH scripting library (Rust).

Shallow embedding of the core of the crate:
  * `SshCommand` and its builder methods  — `src/spurs/src/ssh.rs`
  * `escape_for_bash`                     — `src/spurs/src/util.rs`
  * `run_with_chan_and_opts` (the channel-execution procedure),
    `run` / `spawn` / `from_existing` / `reconnect` — `src/spurs/src/ssh.rs`
  * `get_partitions`                      — `src/spurs-util/src/lib.rs`

Strings from the Rust side are modelled as `List Char`; remote byte
streams as `List Nat` (byte values), decoded into `List Nat` (Unicode
scalar values).  External collaborators (the ssh2 channel, the TCP
transport, Rust's `String::from_utf8_lossy`, the POSIX shell) are
modelled explicitly; every model is documented at its definition.
-/

namespace Spurs

/-- The single-quote character `'` (code 39). -/
def squote : Char := Char.ofNat 39

/-- The double-quote character `"` (code 34). -/
def dquote : Char := Char.ofNat 34

/-! ### `SshCommand` (src/spurs/src/ssh.rs, lines 34-42 and 87-142) -/

/-- Embedding of the Rust struct `SshCommand`: the immutable description of
one remote invocation.  Field names follow the source. -/
structure SshCommand where
  cmd : List Char
  cwd : Option (List Char)
  use_bash : Bool
  allow_error : Bool
  dry_run : Bool
  no_pty : Bool
deriving DecidableEq

/-- `SshCommand::new`: a builder with default options. -/
def SshCommand.new (cmd : List Char) : SshCommand :=
  { cmd := cmd, cwd := none, use_bash := false, allow_error := false,
    dry_run := false, no_pty := false }

/-- `SshCommand::cwd` (primed: the Lean field projection takes the plain name). -/
def SshCommand.cwd' (c : SshCommand) (p : List Char) : SshCommand :=
  { c with cwd := some p }

/-- `SshCommand::use_bash` builder method. -/
def SshCommand.use_bash' (c : SshCommand) : SshCommand :=
  { c with use_bash := true }

/-- `SshCommand::allow_error` builder method. -/
def SshCommand.allow_error' (c : SshCommand) : SshCommand :=
  { c with allow_error := true }

/-- `SshCommand::dry_run` builder method. -/
def SshCommand.dry_run' (c : SshCommand) (is_dry : Bool) : SshCommand :=
  { c with dry_run := is_dry }

/-- `SshCommand::no_pty` builder method. -/
def SshCommand.no_pty' (c : SshCommand) : SshCommand :=
  { c with no_pty := true }

/-! ### `escape_for_bash` (src/spurs/src/util.rs, lines 28-50) -/

/-- The loop body of `escape_for_bash`: each single quote is emitted as the
five characters `'"'"'`, every other character verbatim. -/
def escapeBody : List Char → List Char
  | [] => []
  | c :: rest =>
    if c = squote then
      squote :: dquote :: squote :: dquote :: squote :: escapeBody rest
    else
      c :: escapeBody rest

/-- Embedding of `escape_for_bash`: open a single quote, emit the translated
body, close the single quote. -/
def escape_for_bash (s : List Char) : List Char :=
  squote :: escapeBody s ++ [squote]

/-- The spec's own description of the quote-wrap policy (stated from the
spec's words, for comparison with `escape_for_bash`): wrap the whole string
in single quotes and replace each literal single quote by `'"'"'`. -/
def quoteWrapSpec (s : List Char) : List Char :=
  squote ::
    (s.flatMap fun c =>
      if c = squote then [squote, dquote, squote, dquote, squote] else [c])
    ++ [squote]

/-! ### A model of POSIX shell word parsing.

The shell is an external collaborator (the escaped string is handed to
`bash -c` on the remote side).  We model how a POSIX shell reads a single
word: outside quotes, a quote character switches mode and any
shell-special character is rejected (it would trigger splitting or
expansion, i.e. the input would not be read back as one literal
argument); inside single quotes every character is literal until the
closing quote; inside double quotes `$`, backslash and backtick would
trigger expansion and are rejected, everything else is literal.  The
parser returns the word the shell would see, or `none` when the input is
not one literal word. -/

inductive QMode where
  | unq
  | sq
  | dq
deriving DecidableEq

/-- Characters that are not literal outside of quotes (whitespace,
redirection, expansion and globbing metacharacters). -/
def isUnquotedSpecial (c : Char) : Bool :=
  c ∈ (" \t\n\\$`|&;<>()*?[#~".data)

/-- Characters that are not literal inside double quotes. -/
def isDquoteSpecial (c : Char) : Bool :=
  c ∈ ("$\\`".data)

/-- Model of POSIX single-word parsing, by quoting mode. -/
def parseShellWord : QMode → List Char → Option (List Char)
  | .unq, [] => some []
  | .unq, c :: r =>
    if c = squote then parseShellWord .sq r
    else if c = dquote then parseShellWord .dq r
    else if isUnquotedSpecial c then none
    else (parseShellWord .unq r).map (fun t => c :: t)
  | .sq, [] => none
  | .sq, c :: r =>
    if c = squote then parseShellWord .unq r
    else (parseShellWord .sq r).map (fun t => c :: t)
  | .dq, [] => none
  | .dq, c :: r =>
    if c = dquote then parseShellWord .unq r
    else if isDquoteSpecial c then none
    else (parseShellWord .dq r).map (fun t => c :: t)

/-! ### Byte-stream decoding.

`run_with_chan_and_opts` reads stdout/stderr into a 256-byte buffer and
converts it with Rust's `String::from_utf8_lossy`, then strips trailing
NUL characters.  `from_utf8_lossy` is standard-library code (an external
collaborator); we model it as a UTF-8 decoder from bytes to Unicode
scalar values in which malformed sequences produce the replacement
character U+FFFD.  The claims exercise it only on ASCII and NUL bytes,
where the model is exact. -/

/-- What a lead byte starts: an immediately emitted scalar (an ASCII byte,
or U+FFFD for an invalid lead), or a pending multi-byte sequence
`start cp need lo hi` (partial code point, continuation bytes still
needed, and the permitted range of the next byte, which encodes the
overlong/surrogate/range restrictions of the second byte). -/
inductive LeadResult where
  | emit (cp : Nat)
  | start (cp need lo hi : Nat)
deriving DecidableEq

/-- Classify a byte arriving when no sequence is pending (the WHATWG
UTF-8 decoder's boundary table). -/
def decodeLead (b : Nat) : LeadResult :=
  if b < 0x80 then .emit b
  else if b < 0xC2 then .emit 0xFFFD
  else if b < 0xE0 then .start (b - 0xC0) 1 0x80 0xBF
  else if b = 0xE0 then .start 0 2 0xA0 0xBF
  else if b = 0xED then .start 0xD 2 0x80 0x9F
  else if b < 0xF0 then .start (b - 0xE0) 2 0x80 0xBF
  else if b = 0xF0 then .start 0 3 0x90 0xBF
  else if b = 0xF4 then .start 4 3 0x80 0x8F
  else if b < 0xF5 then .start (b - 0xF0) 3 0x80 0xBF
  else .emit 0xFFFD

/-- The streaming UTF-8 decoder: `none` when the next byte is a lead,
`some (cp, need, lo, hi)` while inside a multi-byte sequence.  A byte
outside the permitted continuation range emits U+FFFD and is then
reconsidered as a lead byte. -/
def utf8LossyAux : Option (Nat × Nat × Nat × Nat) → List Nat → List Nat
  | none, [] => []
  | some _, [] => [0xFFFD]
  | none, b :: rest =>
    match decodeLead b with
    | .emit cp => cp :: utf8LossyAux none rest
    | .start cp need lo hi => utf8LossyAux (some (cp, need, lo, hi)) rest
  | some (cp, need, lo, hi), b :: rest =>
    if lo ≤ b ∧ b ≤ hi then
      if need = 1 then (cp * 0x40 + (b - 0x80)) :: utf8LossyAux none rest
      else utf8LossyAux (some (cp * 0x40 + (b - 0x80), need - 1, 0x80, 0xBF)) rest
    else
      0xFFFD ::
        (match decodeLead b with
         | .emit cp2 => cp2 :: utf8LossyAux none rest
         | .start cp2 need2 lo2 hi2 =>
           utf8LossyAux (some (cp2, need2, lo2, hi2)) rest)

/-- Model of `String::from_utf8_lossy`: decode a byte list to the list of
Unicode scalar values, replacing malformed input by U+FFFD. -/
def utf8Lossy (l : List Nat) : List Nat := utf8LossyAux none l

/-- `str::trim_end_matches` with pattern NUL: drop every trailing NUL
scalar value. -/
def trimEndNuls (l : List Nat) : List Nat :=
  (l.reverse.dropWhile (fun x => x == 0)).reverse

/-- One iteration of the stream-reading loop: the 256-byte buffer holds the
bytes just read followed by the zeroes left by the preceding clear, is
decoded whole, and trailing NULs are trimmed. -/
def readChunk (chunk : List Nat) : List Nat :=
  trimEndNuls (utf8Lossy (chunk ++ List.replicate (256 - chunk.length) 0))

/-- The stream-reading loop: each successful `read` appends its processed
chunk to the accumulated output string. -/
def readStream (chunks : List (List Nat)) : List Nat :=
  chunks.foldl (fun acc c => acc ++ readChunk c) []

/-- A chunk list is a well-formed sequence of `read` results: every read
returns between 1 and 256 bytes (the loop stops at the first 0). -/
def WellFormedChunks (chunks : List (List Nat)) : Prop :=
  ∀ c ∈ chunks, 0 < c.length ∧ c.length ≤ 256

instance (chunks : List (List Nat)) : Decidable (WellFormedChunks chunks) :=
  decidable_of_iff (∀ c ∈ chunks, 0 < c.length ∧ c.length ≤ 256) Iff.rfl

/-! ### The channel-execution procedure
(`run_with_chan_and_opts`, src/spurs/src/ssh.rs lines 315-434).

The ssh2 channel is an external collaborator; we model it as the data it
would deliver for this exec: the stdout read results, the stderr read
results, the exit status, and whether a pty request would succeed.  The
procedure is embedded as a pure function that also records the sequence
of channel operations it performs and the human-readable message it
prints. -/

/-- Model of the ssh2 channel: what the remote side delivers. -/
structure Chan where
  stdoutChunks : List (List Nat)
  stderrChunks : List (List Nat)
  exit : Int
  ptyOk : Bool
deriving DecidableEq

/-- Channel operations, recorded in order. -/
inductive ChanOp where
  | requestPty
  | execCmd (cmd : List Char)
  | readStdout
  | close
  | waitClose
  | readStderr
  | getExitStatus
deriving DecidableEq

/-- Embedding of `SshOutput`: the captured streams, as Unicode scalar
values. -/
structure SshOutput where
  stdout : List Nat
  stderr : List Nat
deriving DecidableEq

/-- The errors `run_with_chan_and_opts` can produce in the model:
`SshError::NonZeroExit` (carrying the rewritten command and the exit
status), or a propagated channel failure from `request_pty`. -/
inductive RunError where
  | nonZeroExit (cmd : List Char) (exit : Int)
  | ptyError
deriving DecidableEq

/-- Decidable equality for `Except`, for evaluating outcomes on concrete
inputs. -/
instance {ε α : Type} [DecidableEq ε] [DecidableEq α] :
    DecidableEq (Except ε α) := fun x y =>
  match x, y with
  | .ok a, .ok b =>
    if h : a = b then .isTrue (h ▸ rfl)
    else .isFalse (fun hc => h (Except.ok.inj hc))
  | .error a, .error b =>
    if h : a = b then .isTrue (h ▸ rfl)
    else .isFalse (fun hc => h (Except.error.inj hc))
  | .ok _, .error _ => .isFalse (fun hc => Except.noConfusion hc)
  | .error _, .ok _ => .isFalse (fun hc => Except.noConfusion hc)

/-- What one call of the channel-execution procedure does: the printed
message, the channel-operation trace, and the returned result. -/
structure RunOutcome where
  msg : List Char
  trace : List ChanOp
  result : Except RunError SshOutput
deriving DecidableEq

/-- The command rewriting performed before exec: first the bash wrap
(`bash -c <escaped>`) when `use_bash`, then the directory prefix
(`cd <dir> ; <cmd>`) when `cwd` is set.  Factored out of the two `let`
bindings of the source. -/
def rewrittenCmd (c : SshCommand) : List Char :=
  let cmd1 :=
    if c.use_bash then ("bash -c ").data ++ escape_for_bash c.cmd else c.cmd
  match c.cwd with
  | some d => ("cd ").data ++ d ++ (" ; ").data ++ cmd1
  | none => cmd1

/-- Embedding of `run_with_chan_and_opts`.  Mirrors the source: capture the
raw command as the display message, rewrite it, print, return early on a
dry run (close/wait-close only, empty output), request a pty unless
suppressed (failure propagates), exec the rewritten command, drain stdout,
close and wait for close, drain stderr, then check the exit status. -/
def run_with_chan_and_opts (chan : Chan) (cmd_opts : SshCommand) : RunOutcome :=
  let msg := cmd_opts.cmd
  let cmd := rewrittenCmd cmd_opts
  if cmd_opts.dry_run then
    { msg := msg, trace := [ChanOp.close, ChanOp.waitClose],
      result := .ok { stdout := [], stderr := [] } }
  else if !cmd_opts.no_pty && !chan.ptyOk then
    { msg := msg, trace := [ChanOp.requestPty], result := .error .ptyError }
  else
    let ptyOps := if cmd_opts.no_pty then [] else [ChanOp.requestPty]
    let stdout := readStream chan.stdoutChunks
    let stderr := readStream chan.stderrChunks
    let trace := ptyOps ++
      [ChanOp.execCmd cmd, ChanOp.readStdout, ChanOp.close, ChanOp.waitClose,
       ChanOp.readStderr, ChanOp.getExitStatus]
    if chan.exit ≠ 0 && !cmd_opts.allow_error then
      { msg := msg, trace := trace,
        result := .error (.nonZeroExit cmd chan.exit) }
    else
      { msg := msg, trace := trace,
        result := .ok { stdout := stdout, stderr := stderr } }

/-! ### The `SshShell` state and its operations
(src/spurs/src/ssh.rs lines 50-60, 256-302, 443-540).

The TCP stream and ssh2 session are external handles; the model keeps
them as opaque identifiers so that replacement is observable. -/

/-- Embedding of the `SshShell` struct.  `tcp` and `sess` stand for the
transport and session handles. -/
structure ShellState where
  tcp : Nat
  username : List Char
  key : List Char
  remote_name : List Char
  remote : Nat
  sess : Nat
  dry_run_mode : Bool
deriving DecidableEq

/-- Embedding of `SshShell::from_existing` on its success path: a fresh
transport and session (supplied by the environment) to the same remote
with the same username and key; `dry_run_mode` is initialised to `false`
by the struct literal in the source. -/
def from_existing (sh : ShellState) (newTcp newSess : Nat) : ShellState :=
  { tcp := newTcp, username := sh.username, key := sh.key,
    remote_name := sh.remote_name, remote := sh.remote, sess := newSess,
    dry_run_mode := false }

/-- Embedding of `Execute::run` for `SshShell`: open a channel and run the
command, forced into dry run when the shell's `dry_run_mode` is on. -/
def ShellState.run (sh : ShellState) (chan : Chan) (cmd : SshCommand) :
    RunOutcome :=
  let cmd := if sh.dry_run_mode then cmd.dry_run' true else cmd
  run_with_chan_and_opts chan cmd

/-- Embedding of `SshSpawnHandle`: the background thread captures the
resolved command; `join` later runs it through the channel-execution
procedure. -/
structure SpawnHandle where
  cmd : SshCommand
deriving DecidableEq

/-- Embedding of `Execute::spawn` for `SshShell`: duplicate the shell via
`from_existing`, resolve the command against `self.dry_run_mode`, and hand
the resolved command to the background thread. -/
def ShellState.spawn (sh : ShellState) (newTcp newSess : Nat)
    (cmd : SshCommand) : ShellState × SpawnHandle :=
  let shell := from_existing sh newTcp newSess
  let cmd := if sh.dry_run_mode then cmd.dry_run' true else cmd
  (shell, { cmd := cmd })

/-- `SshSpawnHandle::join`: the background thread executes the captured
command on a channel of the spawned shell's session. -/
def SpawnHandle.join (h : SpawnHandle) (chan : Chan) : RunOutcome :=
  run_with_chan_and_opts chan h.cmd

/-! ### `reconnect` (src/spurs/src/ssh.rs lines 489-540). -/

/-- The environment for one `reconnect` call: which TCP connection attempt
succeeds, the fresh transport and session handles, and whether the single
handshake and authentication succeed. -/
structure ReconnectEnv where
  connOk : Nat → Bool
  newTcp : Nat
  handshakeOk : Bool
  authOk : Bool
  newSess : Nat

/-- Operations performed by `reconnect`, recorded in order. -/
inductive ReconnectOp where
  | connectAttempt
  | sleepRetry
  | handshake
  | authenticate
deriving DecidableEq

/-- Errors of `reconnect`: a propagated handshake failure, or
`SshError::AuthFailed` carrying the key path. -/
inductive ReconnectError where
  | handshakeFailed
  | authFailed (key : List Char)
deriving DecidableEq

/-- Embedding of `Execute::reconnect` for `SshShell`.  The connect loop
retries (sleeping after each failure) until the first successful attempt
(`Nat.find h`); `self.tcp` is replaced as soon as the connect succeeds,
before the handshake.  Then one handshake and one authentication are
performed; on authentication failure `AuthFailed` is returned; only on
full success is the session replaced. -/
def reconnect (env : ReconnectEnv) (sh : ShellState)
    (h : ∃ n, env.connOk n = true) :
    List ReconnectOp × ShellState × Except ReconnectError Unit :=
  let k := Nat.find h
  let connTrace :=
    (List.replicate k [ReconnectOp.connectAttempt, ReconnectOp.sleepRetry]).flatten
      ++ [ReconnectOp.connectAttempt]
  let sh1 := { sh with tcp := env.newTcp }
  if env.handshakeOk then
    if env.authOk then
      (connTrace ++ [ReconnectOp.handshake, ReconnectOp.authenticate],
       { sh1 with sess := env.newSess }, .ok ())
    else
      (connTrace ++ [ReconnectOp.handshake, ReconnectOp.authenticate],
       sh1, .error (.authFailed sh.key))
  else
    (connTrace ++ [ReconnectOp.handshake], sh1, .error .handshakeFailed)

/-! ### Builder calls as data (for the order/subset contract of the
`SshCommand` builder, src/spurs/src/ssh.rs lines 87-142). -/

/-- One builder call on an `SshCommand`. -/
inductive BuilderOp where
  | opCwd (p : List Char)
  | opUseBash
  | opAllowError
  | opDryRun (b : Bool)
  | opNoPty
deriving DecidableEq

/-- Apply one builder call. -/
def applyOp (c : SshCommand) : BuilderOp → SshCommand
  | .opCwd p => c.cwd' p
  | .opUseBash => c.use_bash'
  | .opAllowError => c.allow_error'
  | .opDryRun b => c.dry_run' b
  | .opNoPty => c.no_pty'

/-- Apply a sequence of builder calls, left to right. -/
def applyOps (c : SshCommand) (ops : List BuilderOp) : SshCommand :=
  ops.foldl applyOp c

/-- Which of the five builder methods a call is. -/
def BuilderOp.kind : BuilderOp → Nat
  | .opCwd _ => 0
  | .opUseBash => 1
  | .opAllowError => 2
  | .opDryRun _ => 3
  | .opNoPty => 4

/-- The `cwd` the calls made set (the last `cwd` call wins), or `none`. -/
def opsCwd (ops : List BuilderOp) : Option (List Char) :=
  ops.foldl (fun acc op => match op with | .opCwd p => some p | _ => acc) none

/-- Whether the calls made include `use_bash`. -/
def opsUseBash (ops : List BuilderOp) : Bool :=
  ops.foldl (fun acc op => match op with | .opUseBash => true | _ => acc) false

/-- Whether the calls made include `allow_error`. -/
def opsAllowError (ops : List BuilderOp) : Bool :=
  ops.foldl (fun acc op => match op with | .opAllowError => true | _ => acc)
    false

/-- The `dry_run` flag the calls made set (the last `dry_run` call wins),
defaulting to `false`. -/
def opsDryRun (ops : List BuilderOp) : Bool :=
  ops.foldl (fun acc op => match op with | .opDryRun b => b | _ => acc) false

/-- Whether the calls made include `no_pty`. -/
def opsNoPty (ops : List BuilderOp) : Bool :=
  ops.foldl (fun acc op => match op with | .opNoPty => true | _ => acc) false

/-! ### `get_partitions` (src/spurs-util/src/lib.rs lines 214-226).

The surrounding `shell.run(cmd!("lsblk -o KNAME {}", device))` call is a
scripted external backend in the claim; we embed the pure computation the
function applies to the returned stdout: split into lines, trim each, skip
the first two, collect. -/

/-- The newline character. -/
def nlChar : Char := Char.ofNat 10

/-- The carriage-return character. -/
def crChar : Char := Char.ofNat 13

/-- Split a string at every newline (keeping a trailing empty segment). -/
def splitOnNl : List Char → List (List Char)
  | [] => [[]]
  | c :: r =>
    let parts := splitOnNl r
    if c = nlChar then [] :: parts
    else
      match parts with
      | [] => [[c]]
      | h :: t => (c :: h) :: t

/-- Remove one trailing carriage return, as Rust's `str::lines` does for
`\r\n` endings. -/
def stripTrailingCr (l : List Char) : List Char :=
  match l.reverse with
  | c :: r => if c = crChar then r.reverse else l
  | [] => l

/-- Model of Rust's `str::lines`: split at `\n` (recognising `\r\n`), the
final line ending being optional. -/
def rustLines (s : List Char) : List (List Char) :=
  let parts := splitOnNl s
  let parts := if parts.getLast? = some [] then parts.dropLast else parts
  parts.map stripTrailingCr

/-- ASCII whitespace, for the model of `str::trim`. -/
def isWs (c : Char) : Bool := c ∈ (" \t\n\r".data)

/-- Model of Rust's `str::trim`: drop leading and trailing whitespace. -/
def rustTrim (l : List Char) : List Char :=
  ((l.dropWhile isWs).reverse.dropWhile isWs).reverse

/-- Embedding of `get_partitions` applied to the stdout of the
`lsblk -o KNAME <device>` command: `.lines().map(trim).skip(2).collect()`.
The source collects into a `HashSet`; the embedding keeps the list, whose
elements are the set's contents. -/
def get_partitions (stdout : List Char) : List (List Char) :=
  (((rustLines stdout).map rustTrim).drop 2)

/-! ### Concrete instances used by witnesses and counterexamples. -/

/-- A channel delivering a single stdout read of one NUL byte. -/
def chanNul : Chan :=
  { stdoutChunks := [[0]], stderrChunks := [], exit := 0, ptyOk := true }

/-- A channel delivering two short ASCII stdout reads and one stderr read. -/
def chanAscii : Chan :=
  { stdoutChunks := [[104, 105], [33]], stderrChunks := [[101]], exit := 0,
    ptyOk := true }

/-- A pty-capable channel with a nonzero exit status and some output. -/
def chanFail : Chan :=
  { stdoutChunks := [[111]], stderrChunks := [[101]], exit := 3, ptyOk := true }

/-- A shell state used in concrete scenarios. -/
def shellW : ShellState :=
  { tcp := 0, username := ("u".data), key := ("k".data),
    remote_name := ("r".data), remote := 0, sess := 5, dry_run_mode := false }

/-- `shellW` with dry-run mode enabled. -/
def shellDry : ShellState := { shellW with dry_run_mode := true }

/-- A reconnect environment whose first connect attempt succeeds but whose
authentication fails. -/
def envAuthFail : ReconnectEnv :=
  { connOk := fun _ => true, newTcp := 1, handshakeOk := true,
    authOk := false, newSess := 7 }

/-- A reconnect environment in which everything succeeds at once. -/
def envAllOk : ReconnectEnv :=
  { connOk := fun _ => true, newTcp := 1, handshakeOk := true,
    authOk := true, newSess := 7 }

/-! ## Theorems -/

/-! ### Small decidable facts about the quoting characters. -/

theorem squote_ne_dquote : squote ≠ dquote := by decide

theorem dquote_ne_squote : dquote ≠ squote := by decide

theorem isDquoteSpecial_squote : isDquoteSpecial squote = false := by decide

/-- The loop body of `escape_for_bash` is the character-wise substitution
the spec describes. -/
theorem escapeBody_eq_flatMap (s : List Char) :
    escapeBody s =
      s.flatMap (fun c =>
        if c = squote then [squote, dquote, squote, dquote, squote] else [c]) := by
  induction s with
  | nil => rfl
  | cons c s ih =>
    by_cases hc : c = squote <;> simp [escapeBody, hc, ih]

/-! Single-step reductions of the word parser. -/

theorem parse_unq_squote (r : List Char) :
    parseShellWord .unq (squote :: r) = parseShellWord .sq r := by
  simp [parseShellWord]

theorem parse_unq_dquote (r : List Char) :
    parseShellWord .unq (dquote :: r) = parseShellWord .dq r := by
  simp [parseShellWord, dquote_ne_squote]

theorem parse_sq_squote (r : List Char) :
    parseShellWord .sq (squote :: r) = parseShellWord .unq r := by
  simp [parseShellWord]

theorem parse_sq_lit (c : Char) (hc : c ≠ squote) (r : List Char) :
    parseShellWord .sq (c :: r)
      = (parseShellWord .sq r).map (fun t => c :: t) := by
  simp [parseShellWord, hc]

theorem parse_dq_squote (r : List Char) :
    parseShellWord .dq (squote :: r)
      = (parseShellWord .dq r).map (fun t => squote :: t) := by
  simp [parseShellWord, squote_ne_dquote, isDquoteSpecial_squote]

theorem parse_dq_dquote (r : List Char) :
    parseShellWord .dq (dquote :: r) = parseShellWord .unq r := by
  simp [parseShellWord]

/-- Reading the escaped body from inside single quotes: the parser
recovers the original characters and continues after the closing quote. -/
theorem parse_sq_escapeBody (s rest : List Char) :
    parseShellWord .sq (escapeBody s ++ squote :: rest)
      = (parseShellWord .unq rest).map (fun t => s ++ t) := by
  induction s generalizing rest with
  | nil =>
    rw [escapeBody, List.nil_append, parse_sq_squote]
    cases parseShellWord .unq rest <;> rfl
  | cons c s ih =>
    by_cases hc : c = squote
    · subst hc
      rw [escapeBody, if_pos rfl, List.cons_append, List.cons_append,
        List.cons_append, List.cons_append, List.cons_append, parse_sq_squote,
        parse_unq_dquote, parse_dq_squote, parse_dq_dquote, parse_unq_squote,
        ih, Option.map_map]
      cases parseShellWord .unq rest <;> rfl
    · rw [escapeBody, if_neg hc, List.cons_append, parse_sq_lit c hc, ih,
        Option.map_map]
      cases parseShellWord .unq rest <;> rfl

/-- C1: for every input string `s`, `escape_for_bash` wraps `s` in single
quotes and replaces each literal single quote by the sequence `'"'"'`
(the quote-wrap policy as the spec states it), and the escaped form, read
by a POSIX shell as a single argument (the `bash -c <escaped>` position),
reproduces exactly `s` — for all strings, hence in particular strings with
single quotes, double quotes, `$`, backticks and pipes. -/
theorem c1_quote_wrap_escape_roundtrip (s : List Char) :
    escape_for_bash s = quoteWrapSpec s ∧
    parseShellWord .unq (escape_for_bash s) = some s := by
  constructor
  · rw [escape_for_bash, quoteWrapSpec, escapeBody_eq_flatMap]
  · rw [escape_for_bash, List.cons_append, parse_unq_squote,
      parse_sq_escapeBody s []]
    simp [parseShellWord]

/-! ### Behaviour of the channel-execution procedure. -/

/-- On a non-dry run with a working pty, the result is determined by the
exit status and the error-tolerance flag. -/
theorem run_result_cases (chan : Chan) (c : SshCommand)
    (hdry : c.dry_run = false) (hpty : chan.ptyOk = true) :
    (run_with_chan_and_opts chan c).result =
      if chan.exit ≠ 0 ∧ c.allow_error = false then
        .error (.nonZeroExit (rewrittenCmd c) chan.exit)
      else
        .ok { stdout := readStream chan.stdoutChunks,
              stderr := readStream chan.stderrChunks } := by
  by_cases he : chan.exit = 0 <;> cases hae : c.allow_error <;>
    simp [run_with_chan_and_opts, hdry, hpty, he, hae]

/-- On a non-dry run with a working pty, the printed message is the raw
command and the trace is pty request (unless suppressed), exec of the
rewritten command, stdout read, close, wait-close, stderr read, exit
status read. -/
theorem run_msg_trace (chan : Chan) (c : SshCommand)
    (hdry : c.dry_run = false) (hpty : chan.ptyOk = true) :
    (run_with_chan_and_opts chan c).msg = c.cmd ∧
    (run_with_chan_and_opts chan c).trace =
      (if c.no_pty then [] else [ChanOp.requestPty]) ++
      [ChanOp.execCmd (rewrittenCmd c), ChanOp.readStdout, ChanOp.close,
       ChanOp.waitClose, ChanOp.readStderr, ChanOp.getExitStatus] := by
  by_cases he : chan.exit = 0 <;> cases hae : c.allow_error <;>
    simp [run_with_chan_and_opts, hdry, hpty, he, hae]

/-- A command that tolerates errors can never produce `NonZeroExit`,
whatever the channel does. -/
theorem allow_error_no_nonzero (chan : Chan) (c : SshCommand)
    (hae : c.allow_error = true) (s : List Char) (e : Int) :
    (run_with_chan_and_opts chan c).result ≠ .error (.nonZeroExit s e) := by
  by_cases hdry : c.dry_run = true
  · simp [run_with_chan_and_opts, hdry]
  · by_cases hp : (!c.no_pty && !chan.ptyOk) = true
    · simp [run_with_chan_and_opts, hdry, hp]
    · simp [run_with_chan_and_opts, hdry, hp, hae]

/-- C2: on an executed command (no dry run, working pty), `NonZeroExit` is
raised iff the exit status is nonzero and `allow_error` is unset; the
error carries the rewritten command text and the exit code; and an
`allow_error` command never raises `NonZeroExit` and always returns the
captured stdout/stderr even on a nonzero exit. -/
theorem c2_nonzero_exit_policy (chan : Chan) (c : SshCommand)
    (hdry : c.dry_run = false) (hpty : chan.ptyOk = true) :
    ((∃ s e, (run_with_chan_and_opts chan c).result
        = .error (.nonZeroExit s e)) ↔
      chan.exit ≠ 0 ∧ c.allow_error = false) ∧
    (chan.exit ≠ 0 ∧ c.allow_error = false →
      (run_with_chan_and_opts chan c).result
        = .error (.nonZeroExit (rewrittenCmd c) chan.exit)) ∧
    (∀ chan2 c2, c2.allow_error = true → ∀ s e,
      (run_with_chan_and_opts chan2 c2).result ≠ .error (.nonZeroExit s e)) ∧
    (c.allow_error = true →
      (run_with_chan_and_opts chan c).result
        = .ok { stdout := readStream chan.stdoutChunks,
                stderr := readStream chan.stderrChunks }) := by
  refine ⟨?_, ?_, fun chan2 c2 hae s e => allow_error_no_nonzero chan2 c2 hae s e, ?_⟩
  · rw [run_result_cases chan c hdry hpty]
    by_cases hcond : chan.exit ≠ 0 ∧ c.allow_error = false <;> simp [hcond]
  · intro hcond
    rw [run_result_cases chan c hdry hpty, if_pos hcond]
  · intro hae
    rw [run_result_cases chan c hdry hpty, if_neg (by simp [hae])]

/-- C2 witness: a pty-capable channel with exit status 3 and a default
command produce exactly the `NonZeroExit` error carrying the rewritten
command and the code 3. -/
theorem c2_witness :
    (SshCommand.new ("false".data)).dry_run = false ∧ chanFail.ptyOk = true ∧
    (run_with_chan_and_opts chanFail (SshCommand.new ("false".data))).result
      = .error (.nonZeroExit (rewrittenCmd (SshCommand.new ("false".data)))
          chanFail.exit) :=
  ⟨rfl, rfl,
    (c2_nonzero_exit_policy chanFail (SshCommand.new ("false".data)) rfl
      rfl).2.1 ⟨by decide, rfl⟩⟩

/-- C3: a dry-run command performs no exec: the channel is closed and
wait-closed immediately, the result is an empty `SshOutput`, and no
`NonZeroExit` error is possible, whatever the command text, the other
flags and the channel state. -/
theorem c3_dry_run_no_exec (chan : Chan) (c : SshCommand)
    (hdry : c.dry_run = true) :
    (run_with_chan_and_opts chan c).result
      = .ok { stdout := [], stderr := [] } ∧
    (run_with_chan_and_opts chan c).trace = [ChanOp.close, ChanOp.waitClose] ∧
    (∀ s, ChanOp.execCmd s ∉ (run_with_chan_and_opts chan c).trace) ∧
    (∀ s e, (run_with_chan_and_opts chan c).result
      ≠ .error (.nonZeroExit s e)) := by
  simp [run_with_chan_and_opts, hdry]

/-- C3 witness: a dry-run command on a channel with nonzero exit status
still returns the empty output. -/
theorem c3_witness :
    ((SshCommand.new ("rm x".data)).dry_run' true).dry_run = true ∧
    (run_with_chan_and_opts chanFail
        ((SshCommand.new ("rm x".data)).dry_run' true)).result
      = .ok { stdout := [], stderr := [] } :=
  ⟨rfl,
    (c3_dry_run_no_exec chanFail ((SshCommand.new ("rm x".data)).dry_run' true)
      rfl).1⟩

/-- C5: on an executed command, the displayed message is the original
unmodified text, every exec on the channel runs exactly the rewritten
command (bash wrap first, then cwd prefix), and for a command with both
flags the executed string is `cd <dir> ; bash -c <escaped original>`. -/
theorem c5_rewrite_order (chan : Chan) (c : SshCommand)
    (hdry : c.dry_run = false) (hpty : chan.ptyOk = true) :
    (run_with_chan_and_opts chan c).msg = c.cmd ∧
    ChanOp.execCmd (rewrittenCmd c) ∈ (run_with_chan_and_opts chan c).trace ∧
    (∀ s, ChanOp.execCmd s ∈ (run_with_chan_and_opts chan c).trace →
      s = rewrittenCmd c) ∧
    (∀ t d,
      rewrittenCmd (((SshCommand.new t).cwd' d).use_bash')
        = ("cd ").data ++ d ++ (" ; ").data
            ++ (("bash -c ").data ++ escape_for_bash t)) := by
  obtain ⟨hmsg, htrace⟩ := run_msg_trace chan c hdry hpty
  refine ⟨hmsg, ?_, ?_, ?_⟩
  · rw [htrace]
    by_cases hno : c.no_pty <;> simp [hno]
  · intro s hs
    rw [htrace] at hs
    by_cases hno : c.no_pty <;> simp [hno] at hs <;> exact hs
  · intro t d
    simp [rewrittenCmd, SshCommand.new, SshCommand.cwd', SshCommand.use_bash']

/-- C5 witness: with both `cwd` and `use_bash` set, the channel execs
exactly `cd /tmp ; bash -c 'echo hi'` while the message stays `echo hi`. -/
theorem c5_witness :
    (((SshCommand.new ("echo hi".data)).cwd' ("/tmp".data)).use_bash').dry_run
        = false ∧
    chanAscii.ptyOk = true ∧
    ChanOp.execCmd ("cd /tmp ; bash -c 'echo hi'".data)
      ∈ (run_with_chan_and_opts chanAscii
          (((SshCommand.new ("echo hi".data)).cwd' ("/tmp".data)).use_bash')).trace :=
  ⟨rfl, rfl, by
    have h := (c5_rewrite_order chanAscii
      (((SshCommand.new ("echo hi".data)).cwd' ("/tmp".data)).use_bash')
      rfl rfl).2.1
    have he : rewrittenCmd
        (((SshCommand.new ("echo hi".data)).cwd' ("/tmp".data)).use_bash')
        = ("cd /tmp ; bash -c 'echo hi'".data) := by decide
    rw [he] at h
    exact h⟩

/-- C4: when the shell's `dry_run_mode` is on, both `run` and `spawn`
execute the command with `dry_run` forced to `true` regardless of its own
flag; when off, the command is executed unchanged. -/
theorem c4_dry_run_mode_override (sh : ShellState) (chan : Chan)
    (newTcp newSess : Nat) (cmd : SshCommand) :
    (sh.dry_run_mode = true →
      ShellState.run sh chan cmd
          = run_with_chan_and_opts chan (cmd.dry_run' true) ∧
      (ShellState.spawn sh newTcp newSess cmd).2.cmd = cmd.dry_run' true ∧
      (cmd.dry_run' true).dry_run = true) ∧
    (sh.dry_run_mode = false →
      ShellState.run sh chan cmd = run_with_chan_and_opts chan cmd ∧
      (ShellState.spawn sh newTcp newSess cmd).2.cmd = cmd) := by
  constructor <;> intro h <;>
    simp [ShellState.run, ShellState.spawn, h, SshCommand.dry_run']

/-- C4 witness: a shell in dry-run mode runs a plain command as its forced
dry-run variant. -/
theorem c4_witness :
    shellDry.dry_run_mode = true ∧
    ShellState.run shellDry chanFail (SshCommand.new ("ls".data))
      = run_with_chan_and_opts chanFail
          ((SshCommand.new ("ls".data)).dry_run' true) :=
  ⟨rfl,
    ((c4_dry_run_mode_override shellDry chanFail 1 2
      (SshCommand.new ("ls".data))).1 rfl).1⟩

/-- C10: every shell produced by `from_existing` — including the second
shell returned by `spawn` — starts with `dry_run_mode` off, even when the
source shell has it on; the dry-run override applied to the spawned
command comes from the original shell's flag. -/
theorem c10_duplicate_not_dry (sh : ShellState) (newTcp newSess : Nat)
    (cmd : SshCommand) :
    (from_existing sh newTcp newSess).dry_run_mode = false ∧
    ((ShellState.spawn sh newTcp newSess cmd).1).dry_run_mode = false ∧
    (ShellState.spawn sh newTcp newSess cmd).1
        = from_existing sh newTcp newSess ∧
    (sh.dry_run_mode = true →
      (ShellState.spawn sh newTcp newSess cmd).2.cmd.dry_run = true) ∧
    (sh.dry_run_mode = false →
      (ShellState.spawn sh newTcp newSess cmd).2.cmd = cmd) := by
  refine ⟨rfl, rfl, rfl, ?_, ?_⟩ <;> intro h <;>
    simp [ShellState.spawn, h, SshCommand.dry_run']

/-- C10 witness: spawning from a dry-run-mode shell yields a shell with the
mode off while the captured command is forced into dry run. -/
theorem c10_witness :
    shellDry.dry_run_mode = true ∧
    ShellState.dry_run_mode
        ((ShellState.spawn shellDry 1 2 (SshCommand.new ("ls".data))).1)
      = false ∧
    (ShellState.spawn shellDry 1 2
        (SshCommand.new ("ls".data))).2.cmd.dry_run = true :=
  ⟨rfl,
    (c10_duplicate_not_dry shellDry 1 2 (SshCommand.new ("ls".data))).2.1,
    (c10_duplicate_not_dry shellDry 1 2
      (SshCommand.new ("ls".data))).2.2.2.1 rfl⟩

/-! ### The builder contract. -/

/-- No builder call changes the command text. -/
theorem applyOps_cmd (c : SshCommand) (ops : List BuilderOp) :
    (applyOps c ops).cmd = c.cmd := by
  induction ops generalizing c with
  | nil => rfl
  | cons op ops ih =>
    rw [applyOps, List.foldl_cons]
    cases op <;> exact ih _

/-- The `cwd` field after a call sequence is the last `cwd` call's
argument (or the starting value). -/
theorem applyOps_cwd (c : SshCommand) (ops : List BuilderOp) :
    (applyOps c ops).cwd =
      ops.foldl
        (fun acc op => match op with | .opCwd p => some p | _ => acc) c.cwd := by
  induction ops generalizing c with
  | nil => rfl
  | cons op ops ih =>
    rw [applyOps, List.foldl_cons, List.foldl_cons]
    cases op <;> exact ih _

/-- The `use_bash` field after a call sequence. -/
theorem applyOps_use_bash (c : SshCommand) (ops : List BuilderOp) :
    (applyOps c ops).use_bash =
      ops.foldl
        (fun acc op => match op with | .opUseBash => true | _ => acc)
        c.use_bash := by
  induction ops generalizing c with
  | nil => rfl
  | cons op ops ih =>
    rw [applyOps, List.foldl_cons, List.foldl_cons]
    cases op <;> exact ih _

/-- The `allow_error` field after a call sequence. -/
theorem applyOps_allow_error (c : SshCommand) (ops : List BuilderOp) :
    (applyOps c ops).allow_error =
      ops.foldl
        (fun acc op => match op with | .opAllowError => true | _ => acc)
        c.allow_error := by
  induction ops generalizing c with
  | nil => rfl
  | cons op ops ih =>
    rw [applyOps, List.foldl_cons, List.foldl_cons]
    cases op <;> exact ih _

/-- The `dry_run` field after a call sequence. -/
theorem applyOps_dry_run (c : SshCommand) (ops : List BuilderOp) :
    (applyOps c ops).dry_run =
      ops.foldl
        (fun acc op => match op with | .opDryRun b => b | _ => acc)
        c.dry_run := by
  induction ops generalizing c with
  | nil => rfl
  | cons op ops ih =>
    rw [applyOps, List.foldl_cons, List.foldl_cons]
    cases op <;> exact ih _

/-- The `no_pty` field after a call sequence. -/
theorem applyOps_no_pty (c : SshCommand) (ops : List BuilderOp) :
    (applyOps c ops).no_pty =
      ops.foldl
        (fun acc op => match op with | .opNoPty => true | _ => acc)
        c.no_pty := by
  induction ops generalizing c with
  | nil => rfl
  | cons op ops ih =>
    rw [applyOps, List.foldl_cons, List.foldl_cons]
    cases op <;> exact ih _

/-- Builder calls of different kinds commute. -/
theorem applyOp_comm (a b : BuilderOp) (hk : a.kind ≠ b.kind ∨ a = b)
    (c : SshCommand) : applyOp (applyOp c a) b = applyOp (applyOp c b) a := by
  rcases hk with hk | rfl
  · cases a <;> cases b <;>
      simp_all [applyOp, BuilderOp.kind, SshCommand.cwd', SshCommand.use_bash',
        SshCommand.allow_error', SshCommand.dry_run', SshCommand.no_pty']
  · rfl

/-- A sequence of builder calls in which each method appears at most once
gives the same command in any order. -/
theorem applyOps_perm (c : SshCommand) {ops ops' : List BuilderOp}
    (hnd : (ops.map BuilderOp.kind).Nodup) (hp : ops.Perm ops') :
    applyOps c ops = applyOps c ops' := by
  refine hp.foldl_eq' ?_ c
  intro x hx y hy z
  by_cases hxy : x = y
  · rw [hxy]
  · exact applyOp_comm x y
      (Or.inl fun hk => hxy (List.inj_on_of_nodup_map hnd hx hy hk)) z

/-- C6: starting from `new t`, any sequence of builder calls yields a
command whose fields reflect exactly the calls made (each field comes from
its own method, unset fields keep the defaults of `new`), the order of a
duplicate-free call sequence is irrelevant, and in particular
`cwd` then `use_bash` equals `use_bash` then `cwd`. -/
theorem c6_builder_contract (t p : List Char) (ops ops' : List BuilderOp)
    (hnd : (ops.map BuilderOp.kind).Nodup) (hp : ops.Perm ops') :
    (applyOps (SshCommand.new t) ops).cmd = t ∧
    (applyOps (SshCommand.new t) ops).cwd = opsCwd ops ∧
    (applyOps (SshCommand.new t) ops).use_bash = opsUseBash ops ∧
    (applyOps (SshCommand.new t) ops).allow_error = opsAllowError ops ∧
    (applyOps (SshCommand.new t) ops).dry_run = opsDryRun ops ∧
    (applyOps (SshCommand.new t) ops).no_pty = opsNoPty ops ∧
    applyOps (SshCommand.new t) ops = applyOps (SshCommand.new t) ops' ∧
    ((SshCommand.new t).cwd' p).use_bash'
      = ((SshCommand.new t).use_bash').cwd' p :=
  ⟨applyOps_cmd _ _, applyOps_cwd _ _, applyOps_use_bash _ _,
    applyOps_allow_error _ _, applyOps_dry_run _ _, applyOps_no_pty _ _,
    applyOps_perm _ hnd hp, rfl⟩

/-- C6 witness: `cwd` then `use_bash` gives the same command value as
`use_bash` then `cwd`. -/
theorem c6_witness :
    (([BuilderOp.opCwd ("/a".data), BuilderOp.opUseBash]).map
        BuilderOp.kind).Nodup ∧
    applyOps (SshCommand.new ("ls".data))
        [BuilderOp.opCwd ("/a".data), BuilderOp.opUseBash]
      = applyOps (SshCommand.new ("ls".data))
        [BuilderOp.opUseBash, BuilderOp.opCwd ("/a".data)] :=
  ⟨by decide,
    (c6_builder_contract ("ls".data) ("/a".data)
      [BuilderOp.opCwd ("/a".data), BuilderOp.opUseBash]
      [BuilderOp.opUseBash, BuilderOp.opCwd ("/a".data)]
      (by decide)
      (List.Perm.swap BuilderOp.opUseBash (BuilderOp.opCwd ("/a".data))
        [])).2.2.2.2.2.2.1⟩

/-- C8: on the scripted `lsblk -o KNAME /dev/foobar` output
`"KNAME\nfoobar\nfoo\nbar\nbaz\n"`, `get_partitions` returns exactly
`{foo, bar, baz}`: the header line and the device's own name are dropped
and every remaining line is trimmed and included. -/
theorem c8_get_partitions_scripted :
    get_partitions ("KNAME\nfoobar\nfoo\nbar\nbaz\n".data)
      = [("foo".data), ("bar".data), ("baz".data)] ∧
    ∀ x, x ∈ get_partitions ("KNAME\nfoobar\nfoo\nbar\nbaz\n".data) ↔
      (x = ("foo".data) ∨ x = ("bar".data) ∨ x = ("baz".data)) := by
  have h : get_partitions ("KNAME\nfoobar\nfoo\nbar\nbaz\n".data)
      = [("foo".data), ("bar".data), ("baz".data)] := by decide
  refine ⟨h, fun x => ?_⟩
  rw [h]
  simp

/-! ### Stream decoding facts. -/

/-- An ASCII byte decodes to itself and leaves the decoder looking at a
lead byte. -/
theorem utf8LossyAux_ascii_cons (b : Nat) (hb : b < 0x80) (t : List Nat) :
    utf8LossyAux none (b :: t) = b :: utf8LossyAux none t := by
  simp [utf8LossyAux, decodeLead, hb]

/-- An all-ASCII prefix decodes to itself, in front of the rest. -/
theorem utf8Lossy_ascii_append (l t : List Nat) (hl : ∀ b ∈ l, b < 0x80) :
    utf8Lossy (l ++ t) = l ++ utf8Lossy t := by
  induction l with
  | nil => simp
  | cons b r ih =>
    have hb : b < 0x80 := hl b (by simp)
    rw [List.cons_append]
    show utf8LossyAux none (b :: (r ++ t)) = (b :: r) ++ utf8Lossy t
    rw [utf8LossyAux_ascii_cons b hb]
    show b :: utf8Lossy (r ++ t) = (b :: r) ++ utf8Lossy t
    rw [ih fun x hx => hl x (by simp [hx])]
    simp

/-- An all-ASCII byte list decodes to itself. -/
theorem utf8Lossy_ascii (l : List Nat) (hl : ∀ b ∈ l, b < 0x80) :
    utf8Lossy l = l := by
  have h := utf8Lossy_ascii_append l [] hl
  have h0 : utf8Lossy ([] : List Nat) = [] := rfl
  rw [List.append_nil, h0, List.append_nil] at h
  exact h

/-- The zero padding decodes to NUL scalars. -/
theorem utf8Lossy_replicate_zeros (n : Nat) :
    utf8Lossy (List.replicate n 0) = List.replicate n 0 := by
  apply utf8Lossy_ascii
  intro b hb
  have := List.eq_of_mem_replicate hb
  omega

/-- Dropping leading zeroes from a zero block. -/
theorem dropWhile_zeros (n : Nat) (x : List Nat) :
    List.dropWhile (fun v => v == 0) (List.replicate n 0 ++ x)
      = List.dropWhile (fun v => v == 0) x := by
  induction n with
  | zero => simp
  | succ n ih => simp [List.replicate_succ, ih]

/-- Trailing zero padding is removed by the NUL trim. -/
theorem trimEndNuls_append_zeros (l : List Nat) (n : Nat) :
    trimEndNuls (l ++ List.replicate n 0) = trimEndNuls l := by
  simp [trimEndNuls, List.reverse_append, List.reverse_replicate,
    dropWhile_zeros]

/-- The NUL trim does nothing to a list without zeroes. -/
theorem trimEndNuls_no_zero (l : List Nat) (h : ∀ x ∈ l, x ≠ 0) :
    trimEndNuls l = l := by
  rw [trimEndNuls]
  have hd : List.dropWhile (fun v => v == 0) l.reverse = l.reverse := by
    cases hr : l.reverse with
    | nil => rfl
    | cons a t =>
      have ha : a ∈ l := by
        rw [← List.mem_reverse, hr]
        simp
      rw [List.dropWhile_cons, if_neg (by simp [h a ha])]
  rw [hd, List.reverse_reverse]

/-- A chunk of nonzero ASCII bytes passes through the read loop body
unchanged: the zero padding of the cleared buffer decodes to NULs that the
trim removes, and nothing else is touched. -/
theorem readChunk_ascii (c : List Nat) (h : ∀ b ∈ c, 1 ≤ b ∧ b ≤ 127) :
    readChunk c = c := by
  rw [readChunk,
    utf8Lossy_ascii_append c _ (fun b hb => by have := (h b hb).2; omega),
    utf8Lossy_replicate_zeros, trimEndNuls_append_zeros]
  exact trimEndNuls_no_zero c fun x hx => by have := (h x hx).1; omega

/-- The accumulator form of the read loop over ASCII chunks. -/
theorem readStream_aux (chunks : List (List Nat))
    (h : ∀ c ∈ chunks, ∀ b ∈ c, 1 ≤ b ∧ b ≤ 127) :
    ∀ acc, chunks.foldl (fun a c => a ++ readChunk c) acc
      = acc ++ chunks.flatten := by
  induction chunks with
  | nil => intro acc; simp
  | cons c cs ih =>
    intro acc
    rw [List.foldl_cons, readChunk_ascii c (fun b hb => h c (by simp) b hb),
      ih fun d hd => h d (by simp [hd])]
    simp

/-- Over nonzero-ASCII chunks the captured stream is the concatenation of
the reads. -/
theorem readStream_ascii (chunks : List (List Nat))
    (h : ∀ c ∈ chunks, ∀ b ∈ c, 1 ≤ b ∧ b ≤ 127) :
    readStream chunks = chunks.flatten := by
  have := readStream_aux chunks h []
  simpa [readStream] using this

/-- C7 (amended): for well-formed reads of nonzero ASCII bytes, the stdout
and stderr fields of a successful result equal the permissive UTF-8
decoding of the respective byte streams.  (In general the code decodes
each 256-byte buffer separately and strips trailing NULs, so the equality
needs the chunks to be NUL-free and not to split a multi-byte character;
see the counterexample.) -/
theorem c7_stream_decode (chan : Chan) (c : SshCommand)
    (hdry : c.dry_run = false) (hpty : chan.ptyOk = true)
    (hok : chan.exit = 0 ∨ c.allow_error = true)
    (_hwfo : WellFormedChunks chan.stdoutChunks)
    (_hwfe : WellFormedChunks chan.stderrChunks)
    (hso : ∀ ch ∈ chan.stdoutChunks, ∀ b ∈ ch, 1 ≤ b ∧ b ≤ 127)
    (hse : ∀ ch ∈ chan.stderrChunks, ∀ b ∈ ch, 1 ≤ b ∧ b ≤ 127) :
    (run_with_chan_and_opts chan c).result
      = .ok { stdout := utf8Lossy chan.stdoutChunks.flatten,
              stderr := utf8Lossy chan.stderrChunks.flatten } := by
  have hnot : ¬(chan.exit ≠ 0 ∧ c.allow_error = false) := by
    rcases hok with h0 | h1
    · simp [h0]
    · simp [h1]
  rw [run_result_cases chan c hdry hpty, if_neg hnot]
  have hflat : ∀ (cs : List (List Nat)),
      (∀ ch ∈ cs, ∀ b ∈ ch, 1 ≤ b ∧ b ≤ 127) →
      ∀ b ∈ cs.flatten, b < 0x80 := by
    intro cs hcs b hb
    obtain ⟨ch, hch, hbch⟩ := List.mem_flatten.mp hb
    have := (hcs ch hch b hbch).2
    omega
  rw [readStream_ascii chan.stdoutChunks hso,
    readStream_ascii chan.stderrChunks hse,
    utf8Lossy_ascii chan.stdoutChunks.flatten (hflat _ hso),
    utf8Lossy_ascii chan.stderrChunks.flatten (hflat _ hse)]

/-- C7 witness: two ASCII stdout reads and one stderr read are captured as
the decoded concatenation of the streams. -/
theorem c7_witness :
    WellFormedChunks chanAscii.stdoutChunks ∧
    WellFormedChunks chanAscii.stderrChunks ∧
    (run_with_chan_and_opts chanAscii (SshCommand.new ("cat".data))).result
      = .ok { stdout := utf8Lossy chanAscii.stdoutChunks.flatten,
              stderr := utf8Lossy chanAscii.stderrChunks.flatten } :=
  ⟨by decide, by decide,
    c7_stream_decode chanAscii (SshCommand.new ("cat".data)) rfl rfl
      (Or.inl rfl) (by decide) (by decide) (by decide) (by decide)⟩

/-- C7 counterexample: a single well-formed stdout read consisting of one
NUL byte.  The permissive decoding of the byte stream is the single NUL
scalar, but the procedure returns empty stdout (the per-buffer trailing
NUL trim eats the data byte), so the claimed equality fails. -/
theorem c7_counterexample :
    WellFormedChunks chanNul.stdoutChunks ∧
    chanNul.exit = 0 ∧
    (run_with_chan_and_opts chanNul (SshCommand.new ("cat f".data))).result
      = .ok { stdout := [], stderr := [] } ∧
    utf8Lossy chanNul.stdoutChunks.flatten = [0] ∧
    ¬((run_with_chan_and_opts chanNul (SshCommand.new ("cat f".data))).result
        = .ok { stdout := utf8Lossy chanNul.stdoutChunks.flatten,
                stderr := utf8Lossy chanNul.stderrChunks.flatten }) := by
  refine ⟨by decide, rfl, by decide, by decide, by decide⟩

/-! ### `reconnect` policy. -/

/-- Occurrences in a flattened replicated block. -/
theorem count_flatten_replicate {α : Type} [DecidableEq α] (a : α) (k : Nat)
    (l : List α) :
    ((List.replicate k l).flatten.count a) = k * l.count a := by
  simp [List.count_flatten, List.map_replicate, List.sum_replicate,
    smul_eq_mul]

/-- C9 (amended): the connect loop makes `Nat.find h + 1` connection
attempts with a sleep after each failure; the handshake is then performed
exactly once and authentication at most once (exactly once when the
handshake succeeds); an authentication failure returns `AuthFailed` at
once, leaving the session in place — though the transport has already
been replaced by the successful connect; only on full success is the
session replaced as well. -/
theorem c9_reconnect_policy (env : ReconnectEnv) (sh : ShellState)
    (h : ∃ n, env.connOk n = true) :
    ((reconnect env sh h).1.count ReconnectOp.handshake = 1) ∧
    ((reconnect env sh h).1.count ReconnectOp.authenticate
        = if env.handshakeOk then 1 else 0) ∧
    ((reconnect env sh h).1.count ReconnectOp.connectAttempt
        = Nat.find h + 1) ∧
    ((reconnect env sh h).1.count ReconnectOp.sleepRetry = Nat.find h) ∧
    (env.handshakeOk = true → env.authOk = false →
      (reconnect env sh h).2.2 = .error (.authFailed sh.key) ∧
      (reconnect env sh h).2.1.sess = sh.sess ∧
      (reconnect env sh h).2.1.tcp = env.newTcp) ∧
    (env.handshakeOk = true → env.authOk = true →
      (reconnect env sh h).2.1
          = { sh with tcp := env.newTcp, sess := env.newSess } ∧
      (reconnect env sh h).2.2 = .ok ()) := by
  have hc1 : List.count ReconnectOp.handshake
      [ReconnectOp.connectAttempt, ReconnectOp.sleepRetry] = 0 := by decide
  have hc2 : List.count ReconnectOp.authenticate
      [ReconnectOp.connectAttempt, ReconnectOp.sleepRetry] = 0 := by decide
  have hc3 : List.count ReconnectOp.connectAttempt
      [ReconnectOp.connectAttempt, ReconnectOp.sleepRetry] = 1 := by decide
  have hc4 : List.count ReconnectOp.sleepRetry
      [ReconnectOp.connectAttempt, ReconnectOp.sleepRetry] = 1 := by decide
  by_cases hh : env.handshakeOk <;> by_cases ha : env.authOk <;>
    simp [reconnect, hh, ha, List.count_append, count_flatten_replicate,
      hc1, hc2, hc3, hc4, List.count_cons, List.count_nil]

/-- C9 witness: with an immediately successful connect, handshake and
authentication, `reconnect` succeeds and installs the fresh transport and
session. -/
theorem c9_witness :
    envAllOk.handshakeOk = true ∧ envAllOk.authOk = true ∧
    (reconnect envAllOk shellW ⟨0, rfl⟩).2.2 = .ok () :=
  ⟨rfl, rfl,
    ((c9_reconnect_policy envAllOk shellW ⟨0, rfl⟩).2.2.2.2.2 rfl rfl).2⟩

/-- C9 counterexample: the first connect attempt succeeds and
authentication then fails.  `reconnect` returns `AuthFailed`, yet the
shell's transport has been replaced (`tcp` changed from 0 to 1): the
transport is not replaced "only on full success". -/
theorem c9_counterexample :
    (reconnect envAuthFail shellW ⟨0, rfl⟩).2.2
        = .error (.authFailed ("k".data)) ∧
    shellW.tcp = 0 ∧
    (reconnect envAuthFail shellW ⟨0, rfl⟩).2.1.tcp = 1 :=
  ⟨rfl, rfl, rfl⟩

end Spurs
